import Mathlib

/-!
Shallow embedding of the multi-registry image search aggregator from
`cmd/podman/search.go`, together with theorems checking the natural-language
specification against it.

Modelling conventions:
* Go strings are Lean `String`s; the Go string operations used by the code
  (`strings.Split` with a one-character separator, `strings.Contains` with a
  one-character substring, `strings.Replace` of `"\n"` by `" "`, `strings.Join`,
  `len`, slicing) are implemented structurally over the character list
  `String.data`, so that everything evaluates by `decide` / `rfl`.  Go's `len`
  and slicing count bytes; here they count characters, which coincides on
  ASCII data (the spec treats the byte/character distinction as an accepted
  quirk of the fixed truncation threshold).
* Go `int` is `Int` (no overflow modelling; `strconv.Atoi` range errors are
  out of the modelled range).
* `*bool` is `Option Bool`; a Go function returning `(T, error)` is
  `T × Option String` or `Except String T`.
* The external registry client `docker.SearchRegistry` is a parameter
  `exec : String → String → Int → Except String (List SearchResult)`
  (registry, term, limit), the capability interface of the spec; the external
  output writer `formats.Writer(...).Out()` is a parameter
  `render : List searchParams → String → Except String Unit`.
-/

namespace PodmanSearch

/-- Splits a character list at every occurrence of `sep`, the Go
`strings.Split` semantics for a one-character separator: the result is never
empty and keeps empty segments. `acc` holds the current segment reversed. -/
def splitCharAux (sep : Char) : List Char → List Char → List (List Char)
  | [], acc => [acc.reverse]
  | c :: rest, acc =>
    if c = sep then acc.reverse :: splitCharAux sep rest []
    else splitCharAux sep rest (c :: acc)

/-- Go `strings.Split(s, sep)` for a one-character separator `sep`. -/
def goSplit (sep : Char) (s : String) : List String :=
  (splitCharAux sep s.data []).map String.mk

/-- Go `strings.Contains(s, sub)` for a one-character substring. -/
def goContainsChar (s : String) (c : Char) : Bool :=
  s.data.any (fun ch => ch == c)

/-- Go `strings.Replace(s, "\n", " ", -1)`: with a one-character pattern and
replacement, replacing every occurrence is a per-character map. -/
def collapseNewlines (s : String) : String :=
  String.mk (s.data.map (fun c => if c = '\n' then ' ' else c))

/-- Go `strings.Join(parts, sep)` for a one-character separator. -/
def joinSep (sep : Char) : List String → String
  | [] => ""
  | [x] => x
  | x :: y :: rest => x ++ String.mk [sep] ++ joinSep sep (y :: rest)

/-- Go `len(s)` (modelled as character count). -/
def goLen (s : String) : Nat := s.data.length

/-- Go `s[:n]` (modelled as the first `n` characters). -/
def goTake (s : String) (n : Nat) : String := String.mk (s.data.take n)

/-- Go `strconv.Atoi`: an optional single leading `+` or `-` sign followed by
one or more decimal digits; anything else is an error.  Platform-int range
errors are not modelled. -/
def goAtoi (s : String) : Except String Int :=
  match s.data with
  | [] => Except.error "invalid syntax"
  | c :: rest =>
    let signed : Bool × List Char :=
      if c = '-' then (true, rest)
      else if c = '+' then (false, rest)
      else (false, c :: rest)
    match signed with
    | (neg, ds) =>
      if ds.isEmpty then Except.error "invalid syntax"
      else if ds.all (fun d => d.isDigit) then
        let n : Nat := ds.foldl (fun a d => a * 10 + (d.toNat - 48)) 0
        Except.ok (if neg then -(n : Int) else (n : Int))
      else Except.error "invalid syntax"

/-- `descriptionTruncLength` from `search.go`. -/
def descriptionTruncLength : Nat := 44

/-- `maxQueries` from `search.go`. -/
def maxQueries : Int := 25

/-- `docker.SearchResult`, the raw record one registry query returns. -/
structure SearchResult where
  Name : String
  Description : String
  StarCount : Int
  IsAutomated : Bool
  IsOfficial : Bool
  deriving Repr, DecidableEq

/-- `searchParams` from `search.go`, the display record. -/
structure searchParams where
  Index : String
  Name : String
  Description : String
  Stars : Int
  Official : String
  Automated : String
  deriving Repr, DecidableEq

/-- `searchOpts` from `search.go` (the fields the aggregator reads; the
authfile and TLS fields are carried untouched into the external system
context and are omitted). -/
structure searchOpts where
  filter : List String
  limit : Int
  noTrunc : Bool
  format : String
  deriving Repr, DecidableEq

/-- `searchFilterParams` from `search.go`; the Go `*bool` fields are
`Option Bool`. -/
structure searchFilterParams where
  stars : Int
  isAutomated : Option Bool
  isOfficial : Option Bool
  deriving Repr, DecidableEq

/-- The zero value `&searchFilterParams{}`. -/
def emptyFilterParams : searchFilterParams :=
  { stars := 0, isAutomated := none, isOfficial := none }

/-- The key of a filter expression: `arr[0]` of `strings.Split(filter, "=")`. -/
def filterKey (s : String) : String := (goSplit '=' s).headD ""

/-- One iteration of the loop body of `parseSearchFilter` in `search.go`:
the `switch arr[0]` over a single filter expression. -/
def parseFilterStep (fp : searchFilterParams) (filter : String) :
    Except String searchFilterParams :=
  let arr := goSplit '=' filter
  if arr.headD "" = "stars" then
    if arr.length < 2 then
      Except.error ("invalid stars filter " ++ filter ++ ", should be stars=<value>")
    else
      match goAtoi (arr.getD 1 "") with
      | Except.error e => Except.error ("incorrect value type for stars filter: " ++ e)
      | Except.ok stars => Except.ok { fp with stars := stars }
  else if arr.headD "" = "is-automated" then
    if arr.length = 2 ∧ arr.getD 1 "" = "false" then
      Except.ok { fp with isAutomated := some false }
    else
      Except.ok { fp with isAutomated := some true }
  else if arr.headD "" = "is-official" then
    if arr.length = 2 ∧ arr.getD 1 "" = "false" then
      Except.ok { fp with isOfficial := some false }
    else
      Except.ok { fp with isOfficial := some true }
  else
    Except.error ("invalid filter type " ++ filter)

/-- The `for _, filter := range opts.filter` loop of `parseSearchFilter`,
threading the partially-built `searchFilterParams`. -/
def parseFiltersFrom : searchFilterParams → List String → Except String searchFilterParams
  | fp, [] => Except.ok fp
  | fp, f :: rest =>
    match parseFilterStep fp f with
    | Except.error e => Except.error e
    | Except.ok fp2 => parseFiltersFrom fp2 rest

/-- `parseSearchFilter` from `search.go`. -/
def parseSearchFilter (opts : searchOpts) : Except String searchFilterParams :=
  parseFiltersFrom emptyFilterParams opts.filter

/-- `matchesStarFilter` from `search.go`. -/
def matchesStarFilter (filter : searchFilterParams) (result : SearchResult) : Bool :=
  filter.stars ≤ result.StarCount

/-- `matchesAutomatedFilter` from `search.go`. -/
def matchesAutomatedFilter (filter : searchFilterParams) (result : SearchResult) : Bool :=
  match filter.isAutomated with
  | some b => result.IsAutomated == b
  | none => true

/-- `matchesOfficialFilter` from `search.go`. -/
def matchesOfficialFilter (filter : searchFilterParams) (result : SearchResult) : Bool :=
  match filter.isOfficial with
  | some b => result.IsOfficial == b
  | none => true

/-- The combined predicate tested at line 204 of `search.go`:
`matchesAutomatedFilter && matchesOfficialFilter && matchesStarFilter`. -/
def matchesFilter (filter : searchFilterParams) (result : SearchResult) : Bool :=
  matchesAutomatedFilter filter result && matchesOfficialFilter filter result
    && matchesStarFilter filter result

/-- The index derivation in `getSearchOutput`: a host of more than two
dot-separated labels keeps its last two labels. -/
def deriveIndex (reg : String) : String :=
  let arr := goSplit '.' reg
  if arr.length > 2 then joinSep '.' (arr.drop (arr.length - 2)) else reg

/-- The query-hint limit computed at the top of `getSearchOutput`:
`limit := maxQueries; if opts.limit != 0 { limit = opts.limit }`. -/
def queryLimit (optsLimit : Int) : Int :=
  if optsLimit ≠ 0 then optsLimit else maxQueries

/-- The per-registry result cap computed inside the registry loop of
`getSearchOutput`:
`limit := maxQueries; if len(results) < limit { limit = len(results) };
 if opts.limit != 0 && opts.limit < len(results) { limit = opts.limit }`. -/
def registryCap (optsLimit : Int) (numResults : Nat) : Int :=
  let limit : Int := if (numResults : Int) < maxQueries then (numResults : Int) else maxQueries
  if optsLimit ≠ 0 ∧ optsLimit < (numResults : Int) then optsLimit else limit

/-- The projection of one accepted raw result into a `searchParams` record
(the body of the inner loop of `getSearchOutput`). -/
def projectResult (reg index : String) (noTrunc : Bool) (r : SearchResult) : searchParams :=
  let official := if r.IsOfficial then "[OK]" else ""
  let automated := if r.IsAutomated then "[OK]" else ""
  let collapsed := collapseNewlines r.Description
  let description :=
    if goLen collapsed > 44 && !noTrunc then
      goTake collapsed descriptionTruncLength ++ "..."
    else collapsed
  let name :=
    if index = "docker.io" && !(goContainsChar r.Name '/') then
      index ++ "/library/" ++ r.Name
    else reg ++ "/" ++ r.Name
  { Index := index, Name := name, Description := description,
    Official := official, Automated := automated, Stars := r.StarCount }

/-- The per-registry portion of the loop of `getSearchOutput`: cap the raw
results, drop non-matches when any filter expression was supplied, project
the rest in order. -/
def processRegistry (opts : searchOpts) (filter : searchFilterParams)
    (reg : String) (results : List SearchResult) : List searchParams :=
  let index := deriveIndex reg
  let selected := results.take (registryCap opts.limit results.length).toNat
  (selected.filter
      (fun r => opts.filter.isEmpty || matchesFilter filter r)).map
    (projectResult reg index opts.noTrunc)

/-- `getSearchOutput` from `search.go`, with the external registry client as
the parameter `exec`.  A failing registry is skipped; the function's error
result is the literal `nil` of the source's single return statement. -/
def getSearchOutput (exec : String → String → Int → Except String (List SearchResult))
    (term : String) (registries : List String) (opts : searchOpts)
    (filter : searchFilterParams) : List searchParams × Option String :=
  let limit := queryLimit opts.limit
  let paramsArr := registries.foldl
    (fun acc reg =>
      match exec reg term limit with
      | Except.error _ => acc
      | Except.ok results => acc ++ processRegistry opts filter reg results)
    []
  (paramsArr, none)

/-- `generateSearchOutput` from `search.go`, with the external output writer
as the parameter `render`. -/
def generateSearchOutput (render : List searchParams → String → Except String Unit)
    (exec : String → String → Int → Except String (List SearchResult))
    (term : String) (registries : List String) (opts : searchOpts)
    (filter : searchFilterParams) : Except String Unit :=
  match getSearchOutput exec term registries opts filter with
  | (_, some e) => Except.error e
  | (searchOutput, none) =>
    if searchOutput.length = 0 then Except.ok ()
    else render searchOutput opts.format

/-- A concrete raw result used to instantiate theorems at specific inputs. -/
def sampleResult : SearchResult :=
  { Name := "n", Description := "", StarCount := 0,
    IsAutomated := false, IsOfficial := false }

end PodmanSearch


namespace PodmanSearch

/-- C5 counterexample: the claim says a non-positive caller limit does not
replace the default query-hint limit of 25, but the source only tests
`opts.limit != 0`, so the caller limit `-1` is passed to the Executor. -/
theorem queryLimit_negative_passthrough : queryLimit (-1) = -1 ∧ queryLimit (-1) ≠ 25 := by
  constructor <;> decide

/-- C5 (amended): the per-registry query-hint limit passed to the Executor is
the fixed default cap 25 unless the caller specified any nonzero limit —
positive or negative — in which case the caller's value is passed; only a
limit of exactly 0 keeps the default.  Moreover `getSearchOutput` consults the
Executor only at that limit. -/
theorem queryLimit_spec (l : Int) :
    (l ≠ 0 → queryLimit l = l) ∧
    (l = 0 → queryLimit l = 25) ∧
    (∀ (exec exec2 : String → String → Int → Except String (List SearchResult))
       (term : String) (registries : List String) (opts : searchOpts)
       (filter : searchFilterParams), opts.limit = l →
       (∀ reg t, exec reg t (queryLimit l) = exec2 reg t (queryLimit l)) →
       getSearchOutput exec term registries opts filter =
         getSearchOutput exec2 term registries opts filter) := by
  refine ⟨fun h => by simp [queryLimit, h], fun h => by simp [queryLimit, h, maxQueries], ?_⟩
  intro exec exec2 term registries opts filter hopts hagree
  subst hopts
  unfold getSearchOutput
  have : registries.foldl
      (fun acc reg =>
        match exec reg term (queryLimit opts.limit) with
        | Except.error _ => acc
        | Except.ok results => acc ++ processRegistry opts filter reg results)
      [] =
    registries.foldl
      (fun acc reg =>
        match exec2 reg term (queryLimit opts.limit) with
        | Except.error _ => acc
        | Except.ok results => acc ++ processRegistry opts filter reg results)
      [] := by
    apply List.foldl_ext
    intro acc reg _
    rw [hagree reg term]
  simp only [this]

/-- C5 witness: instantiation at caller limit 3 and at caller limit 0. -/
theorem queryLimit_spec_inst : queryLimit 3 = 3 ∧ queryLimit 0 = 25 :=
  ⟨(queryLimit_spec 3).1 (by decide), (queryLimit_spec 0).2.1 rfl⟩

/-- C3 counterexample: the claim says the number of raw results iterated for
one registry never exceeds 25, but with caller limit 26 and 27 raw results the
effective cap is 26, and 26 records are produced. -/
theorem registryCap_cap26_exceeds_default :
    registryCap 26 27 = 26 ∧ ¬ registryCap 26 27 ≤ 25 ∧
    (processRegistry { filter := [], limit := 26, noTrunc := false, format := "" }
        emptyFilterParams "example.com"
        (List.replicate 27 { Name := "n", Description := "", StarCount := 0,
                             IsAutomated := false, IsOfficial := false })).length = 26 := by
  refine ⟨by decide, by decide, by decide⟩

/-- C3 (amended): the effective per-registry result cap is the caller's
nonzero limit whenever that limit is strictly below the number of raw results
— even when it exceeds the default cap 25, or is negative (in which case zero
results are iterated) — and `min(25, len(results))` otherwise; the number of
raw results iterated never exceeds `len(results)`, nor
`max(25, caller limit)`. -/
theorem registryCap_spec (l : Int) (n : Nat) :
    registryCap l n = (if l ≠ 0 ∧ l < (n : Int) then l else min 25 (n : Int)) ∧
    (registryCap l n).toNat ≤ n ∧
    (registryCap l n).toNat ≤ max 25 l.toNat ∧
    (∀ (opts : searchOpts) (filter : searchFilterParams) (reg : String)
       (results : List SearchResult), opts.limit = l →
       (processRegistry opts filter reg results).length ≤
         (registryCap l results.length).toNat) := by
  refine ⟨?_, ?_, ?_, ?_⟩
  · simp only [registryCap, maxQueries]
    split_ifs <;> omega
  · simp only [registryCap, maxQueries]
    split_ifs <;> omega
  · simp only [registryCap, maxQueries]
    split_ifs <;> omega
  · intro opts filter reg results hopts
    subst hopts
    calc (processRegistry opts filter reg results).length
        ≤ (results.take (registryCap opts.limit results.length).toNat).length := by
          simp only [processRegistry, List.length_map]
          exact List.length_filter_le _ _
      _ ≤ (registryCap opts.limit results.length).toNat := by
          simp [List.length_take]

/-- C3 witness: with caller limit 3 and 10 raw results the cap is 3 and at
most 3 records are produced. -/
theorem registryCap_spec_inst :
    registryCap 3 10 = 3 ∧
    (processRegistry { filter := [], limit := 3, noTrunc := false, format := "" }
        emptyFilterParams "example.com"
        (List.replicate 10 { Name := "n", Description := "", StarCount := 0,
                             IsAutomated := false, IsOfficial := false })).length ≤ 3 := by
  have h := registryCap_spec 3 10
  refine ⟨by decide, ?_⟩
  have h2 := h.2.2.2 { filter := [], limit := 3, noTrunc := false, format := "" }
    emptyFilterParams "example.com"
    (List.replicate 10 { Name := "n", Description := "", StarCount := 0,
                         IsAutomated := false, IsOfficial := false }) rfl
  simpa using h2

end PodmanSearch

namespace PodmanSearch

/-- C4 counterexample: the claim says the `stars` value must parse as a
non-negative integer, but `strconv.Atoi` accepts a sign, so `stars=-1` parses
successfully and sets a negative minimum star count. -/
theorem parseSearchFilter_negative_stars_ok :
    parseSearchFilter { filter := ["stars=-1"], limit := 0, noTrunc := false, format := "" } =
      Except.ok { stars := -1, isAutomated := none, isOfficial := none } ∧
    (-1 : Int) < 0 := by
  exact ⟨rfl, by decide⟩

/-- C4 (amended): for a filter expression whose key is `stars`, the value must
parse as an integer (a sign is accepted, so negative values are allowed); a
missing value (bare `stars` with no `=`) or a non-numeric value yields a parse
error; otherwise the minimum star count is set to the parsed value and the
other filter fields are untouched. -/
theorem parseFilterStep_stars_spec (fp : searchFilterParams) (e : String)
    (hkey : filterKey e = "stars") :
    ((goSplit '=' e).length < 2 → ∃ msg, parseFilterStep fp e = Except.error msg) ∧
    (∀ msg, goAtoi ((goSplit '=' e).getD 1 "") = Except.error msg →
      ∃ msg2, parseFilterStep fp e = Except.error msg2) ∧
    (∀ n, goAtoi ((goSplit '=' e).getD 1 "") = Except.ok n →
      2 ≤ (goSplit '=' e).length →
      parseFilterStep fp e = Except.ok { fp with stars := n }) := by
  simp only [filterKey, List.headD_eq_head?] at hkey
  refine ⟨?_, ?_, ?_⟩
  · intro hlen
    refine ⟨"invalid stars filter " ++ e ++ ", should be stars=<value>", ?_⟩
    simp [parseFilterStep, List.headD_eq_head?, hkey, hlen]
  · intro msg hmsg
    simp only [List.getD_eq_getD_get?, List.get?_eq_getElem?] at hmsg
    by_cases hlen : (goSplit '=' e).length < 2
    · refine ⟨"invalid stars filter " ++ e ++ ", should be stars=<value>", ?_⟩
      simp [parseFilterStep, List.headD_eq_head?, hkey, hlen]
    · refine ⟨"incorrect value type for stars filter: " ++ msg, ?_⟩
      simp [parseFilterStep, List.headD_eq_head?, hkey, hlen, hmsg]
  · intro n hn hlen
    simp only [List.getD_eq_getD_get?, List.get?_eq_getElem?] at hn
    have hlen2 : ¬ (goSplit '=' e).length < 2 := by omega
    simp [parseFilterStep, List.headD_eq_head?, hkey, hlen2, hn]

/-- C4 witness: `stars=7` sets the minimum star count to 7, leaving the other
fields untouched. -/
theorem parseFilterStep_stars_spec_inst :
    parseFilterStep emptyFilterParams "stars=7" =
      Except.ok { stars := 7, isAutomated := none, isOfficial := none } := by
  have h := (parseFilterStep_stars_spec emptyFilterParams "stars=7" (by rfl)).2.2 7
    (by rfl) (by decide)
  exact h

/-- C6: under a registry host whose derived index label is `docker.io`, a raw
name with no `/` is qualified as `docker.io/library/<name>`, a raw name with a
`/` is qualified as `<registryHost>/<name>`; under every other registry host
the qualified name is always `<registryHost>/<name>`. -/
theorem projectResult_name_spec (reg : String) (noTrunc : Bool) (r : SearchResult) :
    (deriveIndex reg = "docker.io" →
      (goContainsChar r.Name '/' = false →
        (projectResult reg (deriveIndex reg) noTrunc r).Name =
          "docker.io" ++ "/library/" ++ r.Name) ∧
      (goContainsChar r.Name '/' = true →
        (projectResult reg (deriveIndex reg) noTrunc r).Name = reg ++ "/" ++ r.Name)) ∧
    (deriveIndex reg ≠ "docker.io" →
      (projectResult reg (deriveIndex reg) noTrunc r).Name = reg ++ "/" ++ r.Name) := by
  refine ⟨fun hidx => ⟨fun hc => ?_, fun hc => ?_⟩, fun hidx => ?_⟩
  · simp [projectResult, hidx, hc]
  · simp [projectResult, hidx, hc]
  · simp [projectResult, hidx]

/-- C6 witness: `foo` under `docker.io` projects to `docker.io/library/foo`;
`ns/foo` under `docker.io` projects to `docker.io/ns/foo`; `foo` under
`example.com` projects to `example.com/foo`. -/
theorem projectResult_name_spec_inst :
    (projectResult "docker.io" (deriveIndex "docker.io") false
      { Name := "foo", Description := "", StarCount := 0,
        IsAutomated := false, IsOfficial := false }).Name = "docker.io/library/foo" ∧
    (projectResult "docker.io" (deriveIndex "docker.io") false
      { Name := "ns/foo", Description := "", StarCount := 0,
        IsAutomated := false, IsOfficial := false }).Name = "docker.io/ns/foo" ∧
    (projectResult "example.com" (deriveIndex "example.com") false
      { Name := "foo", Description := "", StarCount := 0,
        IsAutomated := false, IsOfficial := false }).Name = "example.com/foo" := by
  refine ⟨?_, ?_, ?_⟩
  · have h := ((projectResult_name_spec "docker.io" false
      { Name := "foo", Description := "", StarCount := 0,
        IsAutomated := false, IsOfficial := false }).1 (by rfl)).1 (by rfl)
    exact h.trans (by decide)
  · have h := ((projectResult_name_spec "docker.io" false
      { Name := "ns/foo", Description := "", StarCount := 0,
        IsAutomated := false, IsOfficial := false }).1 (by rfl)).2 (by rfl)
    exact h.trans (by decide)
  · have h := (projectResult_name_spec "example.com" false
      { Name := "foo", Description := "", StarCount := 0,
        IsAutomated := false, IsOfficial := false }).2 (by decide)
    exact h.trans (by decide)

end PodmanSearch

namespace PodmanSearch

/-- C7: embedded newlines in a raw description are replaced by single spaces;
with truncation enabled, a collapsed description longer than 44 characters is
cut to its first 44 characters followed by `...`; with truncation disabled,
or when the collapsed length is at most 44, the collapsed description is
preserved verbatim. -/
theorem projectResult_description_spec (reg index : String) (noTrunc : Bool)
    (r : SearchResult) :
    ((collapseNewlines r.Description).data =
      r.Description.data.map (fun c => if c = '\n' then ' ' else c)) ∧
    (noTrunc = false → goLen (collapseNewlines r.Description) > 44 →
      (projectResult reg index noTrunc r).Description =
        goTake (collapseNewlines r.Description) descriptionTruncLength ++ "...") ∧
    (noTrunc = true →
      (projectResult reg index noTrunc r).Description = collapseNewlines r.Description) ∧
    (goLen (collapseNewlines r.Description) ≤ 44 →
      (projectResult reg index noTrunc r).Description = collapseNewlines r.Description) := by
  refine ⟨rfl, fun ht hlen => ?_, fun ht => ?_, fun hlen => ?_⟩
  · simp [projectResult, ht, hlen]
  · simp [projectResult, ht]
  · have : ¬ goLen (collapseNewlines r.Description) > 44 := by omega
    simp [projectResult, this]

/-- C7 witness: a 45-character description containing a newline is collapsed
and truncated to its first 44 characters plus `...` when truncation is
enabled, and preserved (collapsed) verbatim when truncation is disabled. -/
theorem projectResult_description_spec_inst :
    (projectResult "example.com" "example.com" false
      { Name := "n",
        Description := "aaaaaaaaaaaaaaaaaaaa\nbbbbbbbbbbbbbbbbbbbbcccc",
        StarCount := 0, IsAutomated := false, IsOfficial := false }).Description =
      "aaaaaaaaaaaaaaaaaaaa bbbbbbbbbbbbbbbbbbbbccc" ++ "..." ∧
    (projectResult "example.com" "example.com" true
      { Name := "n",
        Description := "aaaaaaaaaaaaaaaaaaaa\nbbbbbbbbbbbbbbbbbbbbcccc",
        StarCount := 0, IsAutomated := false, IsOfficial := false }).Description =
      "aaaaaaaaaaaaaaaaaaaa bbbbbbbbbbbbbbbbbbbbcccc" := by
  constructor
  · have h := (projectResult_description_spec "example.com" "example.com" false
      { Name := "n",
        Description := "aaaaaaaaaaaaaaaaaaaa\nbbbbbbbbbbbbbbbbbbbbcccc",
        StarCount := 0, IsAutomated := false, IsOfficial := false }).2.1 rfl (by decide)
    exact h.trans (by decide)
  · have h := (projectResult_description_spec "example.com" "example.com" true
      { Name := "n",
        Description := "aaaaaaaaaaaaaaaaaaaa\nbbbbbbbbbbbbbbbbbbbbcccc",
        StarCount := 0, IsAutomated := false, IsOfficial := false }).2.2.1 rfl
    exact h.trans (by decide)

/-- C8: for every record with a non-negative star count, the combined filter
predicate is the conjunction of the star, official and automated
sub-predicates; the star bound is inclusive; an unset official or automated
filter accepts every record, a set one demands equality with the record's
flag; the empty filter set accepts every such record; with `stars=5`, star
count 5 matches and star count 4 does not. -/
theorem matchesFilter_spec (f : searchFilterParams) (r : SearchResult)
    (hr : 0 ≤ r.StarCount) :
    (matchesFilter f r =
      (matchesStarFilter f r && matchesOfficialFilter f r && matchesAutomatedFilter f r)) ∧
    (matchesStarFilter f r = decide (f.stars ≤ r.StarCount)) ∧
    (f.isOfficial = none → matchesOfficialFilter f r = true) ∧
    (f.isAutomated = none → matchesAutomatedFilter f r = true) ∧
    (∀ b, f.isOfficial = some b → matchesOfficialFilter f r = (r.IsOfficial == b)) ∧
    (∀ b, f.isAutomated = some b → matchesAutomatedFilter f r = (r.IsAutomated == b)) ∧
    (matchesFilter emptyFilterParams r = true) ∧
    (matchesStarFilter { stars := 5, isAutomated := none, isOfficial := none }
      { r with StarCount := 5 } = true) ∧
    (matchesStarFilter { stars := 5, isAutomated := none, isOfficial := none }
      { r with StarCount := 4 } = false) := by
  refine ⟨?_, rfl, fun h => ?_, fun h => ?_, fun b h => ?_, fun b h => ?_, ?_, ?_, ?_⟩
  · simp only [matchesFilter]
    cases matchesStarFilter f r <;> cases matchesOfficialFilter f r <;>
      cases matchesAutomatedFilter f r <;> simp
  · simp [matchesOfficialFilter, h]
  · simp [matchesAutomatedFilter, h]
  · simp [matchesOfficialFilter, h]
  · simp [matchesAutomatedFilter, h]
  · simp only [matchesFilter, matchesAutomatedFilter, matchesOfficialFilter,
      matchesStarFilter, emptyFilterParams]
    simpa using hr
  · simp [matchesStarFilter]
  · simp [matchesStarFilter]

/-- C8 witness: instantiation at the empty filter set and a record with star
count 5. -/
theorem matchesFilter_spec_inst :
    matchesFilter emptyFilterParams
      { Name := "n", Description := "", StarCount := 5,
        IsAutomated := false, IsOfficial := false } = true :=
  (matchesFilter_spec emptyFilterParams
    { Name := "n", Description := "", StarCount := 5,
      IsAutomated := false, IsOfficial := false } (by decide)).2.2.2.2.2.2.1

end PodmanSearch

namespace PodmanSearch

/-- Processing a concatenation of filter expression lists composes the two
parses when the first one succeeds. -/
theorem parseFiltersFrom_append_ok (l1 l2 : List String) (fp g : searchFilterParams)
    (h : parseFiltersFrom fp l1 = Except.ok g) :
    parseFiltersFrom fp (l1 ++ l2) = parseFiltersFrom g l2 := by
  induction l1 generalizing fp with
  | nil =>
    simp only [parseFiltersFrom] at h
    cases h
    simp
  | cons f rest ih =>
    cases hstep : parseFilterStep fp f with
    | error e1 => simp [parseFiltersFrom, hstep] at h
    | ok fp2 =>
      simp only [parseFiltersFrom, hstep] at h
      simp only [List.cons_append, parseFiltersFrom, hstep]
      exact ih fp2 h

/-- When parsing a concatenation succeeds, parsing the first part alone
succeeds. -/
theorem parseFiltersFrom_prefix_ok (l1 l2 : List String) (fp f : searchFilterParams)
    (h : parseFiltersFrom fp (l1 ++ l2) = Except.ok f) :
    ∃ g, parseFiltersFrom fp l1 = Except.ok g := by
  induction l1 generalizing fp with
  | nil => exact ⟨fp, rfl⟩
  | cons x rest ih =>
    cases hstep : parseFilterStep fp x with
    | error e1 => simp [List.cons_append, parseFiltersFrom, hstep] at h
    | ok fp2 =>
      simp only [List.cons_append, parseFiltersFrom, hstep] at h
      obtain ⟨g, hg⟩ := ih fp2 h
      exact ⟨g, by simp [parseFiltersFrom, hstep, hg]⟩

/-- A successful parsing step for one expression leaves the fields of every
other filter key untouched. -/
theorem parseFilterStep_preserves (fp g : searchFilterParams) (e : String)
    (h : parseFilterStep fp e = Except.ok g) :
    (filterKey e ≠ "stars" → g.stars = fp.stars) ∧
    (filterKey e ≠ "is-automated" → g.isAutomated = fp.isAutomated) ∧
    (filterKey e ≠ "is-official" → g.isOfficial = fp.isOfficial) := by
  simp only [parseFilterStep] at h
  simp only [filterKey]
  split at h
  · rename_i h1
    split at h
    · exact absurd h (by simp)
    · split at h
      · exact absurd h (by simp)
      · rename_i n hn
        obtain rfl : ({ fp with stars := n } : searchFilterParams) = g := by
          simpa using h
        exact ⟨fun hk => absurd h1 hk, fun _ => rfl, fun _ => rfl⟩
  · rename_i h1
    split at h
    · rename_i h2
      split at h <;>
        · obtain rfl := (by simpa using h :
            ({ fp with isAutomated := _ } : searchFilterParams) = g)
          exact ⟨fun _ => rfl, fun hk => absurd h2 hk, fun _ => rfl⟩
    · rename_i h2
      split at h
      · rename_i h3
        split at h <;>
          · obtain rfl := (by simpa using h :
              ({ fp with isOfficial := _ } : searchFilterParams) = g)
            exact ⟨fun _ => rfl, fun _ => rfl, fun hk => absurd h3 hk⟩
      · exact absurd h (by simp)

/-- A successful parse of a list containing no expression for a given filter
key leaves that key's field untouched. -/
theorem parseFiltersFrom_preserves (l : List String) (fp g : searchFilterParams)
    (h : parseFiltersFrom fp l = Except.ok g) :
    ((∀ e ∈ l, filterKey e ≠ "stars") → g.stars = fp.stars) ∧
    ((∀ e ∈ l, filterKey e ≠ "is-automated") → g.isAutomated = fp.isAutomated) ∧
    ((∀ e ∈ l, filterKey e ≠ "is-official") → g.isOfficial = fp.isOfficial) := by
  induction l generalizing fp with
  | nil =>
    simp only [parseFiltersFrom] at h
    cases h
    simp
  | cons f rest ih =>
    cases hstep : parseFilterStep fp f with
    | error e1 => simp [parseFiltersFrom, hstep] at h
    | ok fp2 =>
      simp only [parseFiltersFrom, hstep] at h
      have hp := parseFilterStep_preserves fp fp2 f hstep
      have hr := ih fp2 h
      refine ⟨fun hall => ?_, fun hall => ?_, fun hall => ?_⟩
      · rw [hr.1 fun e2 he => hall e2 (List.mem_cons_of_mem _ he),
          hp.1 (hall f (List.mem_cons_self f rest))]
      · rw [hr.2.1 fun e2 he => hall e2 (List.mem_cons_of_mem _ he),
          hp.2.1 (hall f (List.mem_cons_self f rest))]
      · rw [hr.2.2 fun e2 he => hall e2 (List.mem_cons_of_mem _ he),
          hp.2.2 (hall f (List.mem_cons_self f rest))]

/-- A successful parsing step for an expression of a given key sets that
key's field to a value depending only on the expression, not on the incoming
partial filter set. -/
theorem parseFilterStep_sets (fp fp2 g g2 : searchFilterParams) (e : String)
    (h : parseFilterStep fp e = Except.ok g)
    (h2 : parseFilterStep fp2 e = Except.ok g2) :
    (filterKey e = "stars" → g.stars = g2.stars) ∧
    (filterKey e = "is-automated" → g.isAutomated = g2.isAutomated) ∧
    (filterKey e = "is-official" → g.isOfficial = g2.isOfficial) := by
  simp only [parseFilterStep] at h h2
  simp only [filterKey]
  by_cases h1 : (goSplit '=' e).headD "" = "stars"
  · rw [if_pos h1] at h h2
    by_cases hlen : (goSplit '=' e).length < 2
    · rw [if_pos hlen] at h
      exact absurd h (by simp)
    · rw [if_neg hlen] at h h2
      cases hA : goAtoi ((goSplit '=' e).getD 1 "") with
      | error e1 => rw [hA] at h; exact absurd h (by simp)
      | ok n =>
        rw [hA] at h h2
        obtain rfl : ({ fp with stars := n } : searchFilterParams) = g := by simpa using h
        obtain rfl : ({ fp2 with stars := n } : searchFilterParams) = g2 := by simpa using h2
        exact ⟨fun _ => rfl, fun hk => absurd h1 (hk ▸ (by decide)),
          fun hk => absurd h1 (hk ▸ (by decide))⟩
  · rw [if_neg h1] at h h2
    by_cases hA : (goSplit '=' e).headD "" = "is-automated"
    · rw [if_pos hA] at h h2
      by_cases hv : (goSplit '=' e).length = 2 ∧ (goSplit '=' e).getD 1 "" = "false" <;>
        [rw [if_pos hv] at h h2; rw [if_neg hv] at h h2] <;>
        · obtain rfl := (by simpa using h :
            ({ fp with isAutomated := _ } : searchFilterParams) = g)
          obtain rfl := (by simpa using h2 :
            ({ fp2 with isAutomated := _ } : searchFilterParams) = g2)
          exact ⟨fun hk => absurd hA (hk ▸ (by decide)), fun _ => rfl,
            fun hk => absurd hA (hk ▸ (by decide))⟩
    · rw [if_neg hA] at h h2
      by_cases hO : (goSplit '=' e).headD "" = "is-official"
      · rw [if_pos hO] at h h2
        by_cases hv : (goSplit '=' e).length = 2 ∧ (goSplit '=' e).getD 1 "" = "false" <;>
          [rw [if_pos hv] at h h2; rw [if_neg hv] at h h2] <;>
          · obtain rfl := (by simpa using h :
              ({ fp with isOfficial := _ } : searchFilterParams) = g)
            obtain rfl := (by simpa using h2 :
              ({ fp2 with isOfficial := _ } : searchFilterParams) = g2)
            exact ⟨fun hk => absurd hO (hk ▸ (by decide)),
              fun hk => absurd hO (hk ▸ (by decide)), fun _ => rfl⟩
      · rw [if_neg hO] at h
        exact absurd h (by simp)

end PodmanSearch

namespace PodmanSearch

/-- C9: when the same recognized filter key occurs more than once and every
expression parses, the resulting filter set holds, for that key, the value
the last occurrence alone would produce — last write wins in processing
order. -/
theorem parseSearchFilter_last_write_wins (opts : searchOpts)
    (l1 l2 : List String) (e : String) (f fe : searchFilterParams)
    (hopts : opts.filter = l1 ++ e :: l2)
    (hf : parseSearchFilter opts = Except.ok f)
    (he : parseFiltersFrom emptyFilterParams [e] = Except.ok fe)
    (hl : ∀ e2 ∈ l2, filterKey e2 ≠ filterKey e) :
    (filterKey e = "stars" → f.stars = fe.stars) ∧
    (filterKey e = "is-automated" → f.isAutomated = fe.isAutomated) ∧
    (filterKey e = "is-official" → f.isOfficial = fe.isOfficial) := by
  rw [parseSearchFilter, hopts] at hf
  obtain ⟨m, hm⟩ := parseFiltersFrom_prefix_ok l1 (e :: l2) emptyFilterParams f hf
  rw [parseFiltersFrom_append_ok l1 (e :: l2) emptyFilterParams m hm] at hf
  cases hstep : parseFilterStep m e with
  | error e1 => simp [parseFiltersFrom, hstep] at hf
  | ok m2 =>
    simp only [parseFiltersFrom, hstep] at hf
    cases hstep0 : parseFilterStep emptyFilterParams e with
    | error e1 => simp [parseFiltersFrom, hstep0] at he
    | ok fe2 =>
      simp only [parseFiltersFrom, hstep0] at he
      cases he
      have hsets := parseFilterStep_sets m emptyFilterParams m2 fe e hstep hstep0
      have hpres := parseFiltersFrom_preserves l2 m2 f hf
      refine ⟨fun hk => ?_, fun hk => ?_, fun hk => ?_⟩
      · rw [hpres.1 fun e2 he2 => hk ▸ hl e2 he2, hsets.1 hk]
      · rw [hpres.2.1 fun e2 he2 => hk ▸ hl e2 he2, hsets.2.1 hk]
      · rw [hpres.2.2 fun e2 he2 => hk ▸ hl e2 he2, hsets.2.2 hk]

/-- C9 witness: in `stars=1, stars=7, is-official` the later `stars=7` wins:
the parse yields minimum star count 7, the value `stars=7` alone produces. -/
theorem parseSearchFilter_last_write_wins_inst :
    parseSearchFilter
      { filter := ["stars=1", "stars=7", "is-official"], limit := 0,
        noTrunc := false, format := "" } =
      Except.ok { stars := 7, isAutomated := none, isOfficial := some true } ∧
    ({ stars := 7, isAutomated := none, isOfficial := some true } : searchFilterParams).stars =
      ({ stars := 7, isAutomated := none, isOfficial := none } : searchFilterParams).stars := by
  refine ⟨by rfl, ?_⟩
  exact (parseSearchFilter_last_write_wins
    { filter := ["stars=1", "stars=7", "is-official"], limit := 0,
      noTrunc := false, format := "" }
    ["stars=1"] ["is-official"] "stars=7"
    { stars := 7, isAutomated := none, isOfficial := some true }
    { stars := 7, isAutomated := none, isOfficial := none }
    rfl (by rfl) (by rfl) (by decide)).1 (by rfl)

end PodmanSearch

namespace PodmanSearch

/-- With caller limit 3 and a registry whose query returns 10 raw results all
passing the filter predicate, that registry contributes exactly its first 3
results, projected in order. -/
theorem processRegistry_limit3_all_match (opts : searchOpts)
    (filter : searchFilterParams) (reg : String) (results : List SearchResult)
    (hlim : opts.limit = 3) (hn : results.length = 10)
    (hm : ∀ r ∈ results, matchesFilter filter r = true) :
    processRegistry opts filter reg results =
      (results.take 3).map (projectResult reg (deriveIndex reg) opts.noTrunc) := by
  have hcap : (registryCap opts.limit results.length).toNat = 3 := by
    rw [hlim, hn]; decide
  simp only [processRegistry, hcap]
  congr 1
  apply List.filter_eq_self.mpr
  intro r hr
  have := hm r (List.take_subset 3 results hr)
  simp [this]

/-- C1: the caller limit is applied per registry, not globally: with caller
limit 3 and two registries each returning 10 raw results that all pass the
filters, the aggregator returns exactly 6 records — the first 3 from each
registry, in registry order — and no error. -/
theorem getSearchOutput_perRegistryLimit
    (exec : String → String → Int → Except String (List SearchResult))
    (term r1 r2 : String) (opts : searchOpts) (filter : searchFilterParams)
    (res1 res2 : List SearchResult)
    (hlim : opts.limit = 3)
    (h1 : exec r1 term (queryLimit opts.limit) = Except.ok res1)
    (h2 : exec r2 term (queryLimit opts.limit) = Except.ok res2)
    (hn1 : res1.length = 10) (hn2 : res2.length = 10)
    (hm1 : ∀ r ∈ res1, matchesFilter filter r = true)
    (hm2 : ∀ r ∈ res2, matchesFilter filter r = true) :
    getSearchOutput exec term [r1, r2] opts filter =
      ((res1.take 3).map (projectResult r1 (deriveIndex r1) opts.noTrunc) ++
        (res2.take 3).map (projectResult r2 (deriveIndex r2) opts.noTrunc), none) ∧
    (getSearchOutput exec term [r1, r2] opts filter).1.length = 6 := by
  have hp1 := processRegistry_limit3_all_match opts filter r1 res1 hlim hn1 hm1
  have hp2 := processRegistry_limit3_all_match opts filter r2 res2 hlim hn2 hm2
  have hmain : getSearchOutput exec term [r1, r2] opts filter =
      ((res1.take 3).map (projectResult r1 (deriveIndex r1) opts.noTrunc) ++
        (res2.take 3).map (projectResult r2 (deriveIndex r2) opts.noTrunc), none) := by
    simp only [getSearchOutput, List.foldl_cons, List.foldl_nil, h1, h2, hp1, hp2,
      List.nil_append]
  refine ⟨hmain, ?_⟩
  rw [hmain]
  simp only [List.length_append, List.length_map, List.length_take, hn1, hn2]
  decide

/-- C1 witness: a concrete two-registry search with limit 3 and 10 results
per registry yields 6 records. -/
theorem getSearchOutput_perRegistryLimit_inst :
    (getSearchOutput (fun _ _ _ => Except.ok (List.replicate 10 sampleResult))
      "t" ["reg.one", "reg.two"]
      { filter := [], limit := 3, noTrunc := false, format := "" }
      emptyFilterParams).1.length = 6 :=
  (getSearchOutput_perRegistryLimit
    (fun _ _ _ => Except.ok (List.replicate 10 sampleResult))
    "t" "reg.one" "reg.two"
    { filter := [], limit := 3, noTrunc := false, format := "" }
    emptyFilterParams
    (List.replicate 10 sampleResult) (List.replicate 10 sampleResult)
    rfl rfl rfl (by decide) (by decide) (by decide) (by decide)).2

/-- C2: a failing first registry is skipped: the aggregate over the two
registries equals the aggregate over the second registry alone — the second
registry's filtered, projected records — and the error result is nil. -/
theorem getSearchOutput_skipFailedRegistry
    (exec : String → String → Int → Except String (List SearchResult))
    (term r1 r2 : String) (opts : searchOpts) (filter : searchFilterParams)
    (e : String)
    (h1 : exec r1 term (queryLimit opts.limit) = Except.error e) :
    getSearchOutput exec term [r1, r2] opts filter =
      getSearchOutput exec term [r2] opts filter ∧
    (getSearchOutput exec term [r1, r2] opts filter).2 = none := by
  refine ⟨?_, rfl⟩
  simp only [getSearchOutput, List.foldl_cons, List.foldl_nil, h1]

/-- C2 witness: a concrete search whose first registry errors returns exactly
the second registry's records. -/
theorem getSearchOutput_skipFailedRegistry_inst :
    getSearchOutput
      (fun reg _ _ =>
        if reg = "bad.registry" then Except.error "connection refused"
        else Except.ok [sampleResult])
      "t" ["bad.registry", "good.example"]
      { filter := [], limit := 0, noTrunc := false, format := "" }
      emptyFilterParams =
    getSearchOutput
      (fun reg _ _ =>
        if reg = "bad.registry" then Except.error "connection refused"
        else Except.ok [sampleResult])
      "t" ["good.example"]
      { filter := [], limit := 0, noTrunc := false, format := "" }
      emptyFilterParams :=
  (getSearchOutput_skipFailedRegistry
    (fun reg _ _ =>
      if reg = "bad.registry" then Except.error "connection refused"
      else Except.ok [sampleResult])
    "t" "bad.registry" "good.example"
    { filter := [], limit := 0, noTrunc := false, format := "" }
    emptyFilterParams "connection refused" (by rfl)).1

/-- C10: the aggregation step is total with respect to errors: for every
executor, term, registry list, options and filter set the error component of
`getSearchOutput` is nil, and `generateSearchOutput` either succeeds (empty
output) or returns exactly what the external renderer returns — once filter
parsing and registry resolution have succeeded, the search itself contributes
no error. -/
theorem searchOutput_error_free
    (render : List searchParams → String → Except String Unit)
    (exec : String → String → Int → Except String (List SearchResult))
    (term : String) (registries : List String) (opts : searchOpts)
    (filter : searchFilterParams) :
    (getSearchOutput exec term registries opts filter).2 = none ∧
    generateSearchOutput render exec term registries opts filter =
      (if (getSearchOutput exec term registries opts filter).1.length = 0 then
        Except.ok ()
      else render (getSearchOutput exec term registries opts filter).1 opts.format) :=
  ⟨rfl, rfl⟩

end PodmanSearch
